import Mathlib

/-
Verification of the ratchet WebSocket engine against its specification.

The repository ships, under `src/`, the split-connection test-suite
(`ratchet_core/src/split/tests.rs`) and the owned-connection constructor
(`ratchet/src/owned/mod.rs`).  The frame codec, the fragmentation
reassembler and the split read/write machinery themselves live outside
`src/`; where a definition embeds such a missing component it is modelled
from the spec (its doc comment says so), and the test-suite's assertions —
which are authoritative source code — pin the observable behaviour the
model must reproduce.

Bytes are `Nat` values below 256; payloads are `List Nat`.
-/

namespace Ratchet

/-- WebSocket frame opcodes.  Modelled from the spec: the `OpCode` enum
(`DataCode` Continuation/Text/Binary and `ControlCode` Close/Ping/Pong)
referenced by the tests is defined in `ratchet_core/src/protocol`, which is
not under `src/`.  Wire values follow RFC 6455 as the spec's wire layout
requires. -/
inductive OpCode
  | continuation
  | text
  | binary
  | close
  | ping
  | pong
deriving DecidableEq, Repr

/-- Wire value of an opcode (low four bits of the first frame byte). -/
def OpCode.toNat : OpCode → Nat
  | .continuation => 0
  | .text => 1
  | .binary => 2
  | .close => 8
  | .ping => 9
  | .pong => 10

/-- Parse the low four bits of the first frame byte; undefined opcodes are
rejected by the decoder. -/
def OpCode.fromNat (n : Nat) : Option OpCode :=
  if n = 0 then some .continuation
  else if n = 1 then some .text
  else if n = 2 then some .binary
  else if n = 8 then some .close
  else if n = 9 then some .ping
  else if n = 10 then some .pong
  else none

/-- Close, Ping and Pong are control opcodes. -/
def OpCode.isControl : OpCode → Bool
  | .close => true
  | .ping => true
  | .pong => true
  | _ => false

/-- Connection role; determines the masking obligation. -/
inductive Role
  | client
  | server
deriving DecidableEq, Repr

/-- `Role::is_server`, as used by `Sender::write_frame` in the tests. -/
def Role.is_server : Role → Bool
  | .client => false
  | .server => true

/-- The peer's role. -/
def Role.other : Role → Role
  | .client => .server
  | .server => .client

/-- Error taxonomy.  Modelled from the spec: `ratchet_core`'s `Error` type is
not under `src/`; the spec lists IoError, ProtocolError, HandshakeError,
ExtensionError and CapacityError, and the tests classify errors with
`is_protocol()`. -/
inductive Error
  | io
  | protocol (reason : String)
  | handshake
  | extensionFailure
  | capacity
deriving DecidableEq, Repr

/-- `Error::is_protocol`, the predicate query the tests use. -/
def Error.is_protocol : Error → Bool
  | .protocol _ => true
  | _ => false

/-- A decoded frame: opcode, fin flag and (unmasked) payload.  Modelled from
the spec: "Frame: opcode, fin flag, reserved bits, optional 32-bit mask key,
payload"; reserved bits are always zero under the identity extension and the
mask key is transient, so neither is stored. -/
structure Frame where
  opcode : OpCode
  fin : Bool
  payload : List Nat
deriving DecidableEq, Repr

/-- XOR a payload with the repeating 4-byte mask key, starting at key
offset `i`. -/
def maskFrom (key : List Nat) : Nat → List Nat → List Nat
  | _, [] => []
  | i, b :: bs => (b ^^^ key.getD (i % 4) 0) :: maskFrom key (i + 1) bs

/-- Apply (or remove) masking: payload XOR-masked with the repeating key. -/
def maskPayload (key : List Nat) (payload : List Nat) : List Nat :=
  maskFrom key 0 payload

/-- `k` big-endian bytes of `n` (most significant first), as used by the
16-bit and 64-bit extended payload-length fields. -/
def beBytes : Nat → Nat → List Nat
  | 0, _ => []
  | k + 1, n => beBytes k (n / 256) ++ [n % 256]

/-- Read back a big-endian byte sequence. -/
def beToNat : List Nat → Nat
  | [] => 0
  | b :: bs => b * 256 ^ bs.length + beToNat bs

/-- The 32-bit mask key as its four wire bytes. -/
def normKey (key : List Nat) : List Nat :=
  [key.getD 0 0, key.getD 1 0, key.getD 2 0, key.getD 3 0]

/-- Encode one frame to wire bytes.  Modelled from the spec: the frame codec
(`FramedWrite` / the codec in `ratchet_core`) is not under `src/`.  Layout:
`FIN|RSV|Opcode` byte, then `MASK|PayloadLen(7|7+16|7+64)`, then the 4-byte
mask key when the writer is a client, then the payload, XOR-masked when the
writer is a client.  `key` stands for the randomly drawn mask key. -/
def encodeFrame (role : Role) (key : List Nat) (f : Frame) : List Nat :=
  let b0 := (if f.fin then 128 else 0) + f.opcode.toNat
  let maskBit := if role = .client then 128 else 0
  let len := f.payload.length
  let lenField :=
    if len ≤ 125 then [maskBit + len]
    else if len ≤ 65535 then (maskBit + 126) :: beBytes 2 len
    else (maskBit + 127) :: beBytes 8 len
  let keyField := if role = .client then normKey key else []
  let body := if role = .client then maskPayload (normKey key) f.payload else f.payload
  b0 :: (lenField ++ (keyField ++ body))

/-- Connection configuration, immutable after construction.  Modelled from
the spec: "`{max_message_size, max_frame_size, ...}` — immutable
thereafter"; the tests use `WebSocketConfig::default()`. -/
structure WebSocketConfig where
  max_message_size : Nat
  max_frame_size : Nat
deriving DecidableEq, Repr

/-- The default configuration used by the test fixture (64 MiB / 16 MiB). -/
def WebSocketConfig.default : WebSocketConfig :=
  { max_message_size := 64 * 1024 * 1024, max_frame_size := 16 * 1024 * 1024 }

/-- Parse the payload-length field: a 7-bit inline length, or the escape
values 126/127 followed by a 16-bit or 64-bit big-endian extended length,
rejecting extended encodings inconsistent with magnitude.  Returns the
length and the bytes following the length field. -/
def parseLenField (len7 : Nat) (rest1 : List Nat) : Except Error (Nat × List Nat) :=
  if len7 ≤ 125 then .ok (len7, rest1)
  else if len7 = 126 then
    if 2 ≤ rest1.length then
      let n := beToNat (rest1.take 2)
      if n ≤ 125 then .error (.protocol "non-minimal length encoding")
      else .ok (n, rest1.drop 2)
    else .error .io
  else
    if 8 ≤ rest1.length then
      let n := beToNat (rest1.take 8)
      if n ≤ 65535 then .error (.protocol "non-minimal length encoding")
      else .ok (n, rest1.drop 8)
    else .error .io

/-- Decode one frame from the head of a byte stream, returning the frame and
the unconsumed tail.  Modelled from the spec: the decoder (`read_next`'s
frame layer) is not under `src/`.  It rejects non-zero reserved bits (no
extension is active), undefined opcodes, a masking direction contradicting
the sender's role (`receiver` is this side's role: a server must receive
masked frames, a client unmasked ones), length-field encodings inconsistent
with magnitude, payloads over the per-frame limit, and fragmented or
oversized (>125 byte) control frames; a stream ending mid-frame is an
IoError. -/
def decodeFrame (cfg : WebSocketConfig) (receiver : Role) :
    List Nat → Except Error (Frame × List Nat)
  | [] => .error .io
  | b0 :: rest0 =>
    let fin := b0 / 128 % 2 = 1
    if b0 / 16 % 8 ≠ 0 then .error (.protocol "reserved bits must be zero")
    else
      match OpCode.fromNat (b0 % 16) with
      | none => .error (.protocol "undefined opcode")
      | some op =>
        match rest0 with
        | [] => .error .io
        | b1 :: rest1 =>
          let masked := b1 / 128 % 2 = 1
          if masked ≠ (receiver = Role.server) then
            .error (.protocol "masking direction violation")
          else
            match parseLenField (b1 % 128) rest1 with
            | .error e => .error e
            | .ok (len, rest2) =>
              if cfg.max_frame_size < len then
                .error (.protocol "frame exceeds max_frame_size")
              else if op.isControl ∧ (¬ fin ∨ 125 < len) then
                .error (.protocol "invalid control frame")
              else
                let keyLen := if masked then 4 else 0
                if rest2.length < keyLen + len then .error .io
                else
                  let key := rest2.take keyLen
                  let body := (rest2.drop keyLen).take len
                  let payload := if masked then maskPayload key body else body
                  .ok (⟨op, fin, payload⟩, (rest2.drop keyLen).drop len)

/-- The message surface observed by `read`.  As the test-suite pins down
(`interleaved_control_frames` asserts `message == Message::Text` and finds
the reassembled payload in the caller's read buffer), `Text` and `Binary`
are unit variants: their payload is delivered through the caller-supplied
buffer, while control messages carry their payload in the variant. -/
inductive Message
  | text
  | binary
  | ping (payload : List Nat)
  | pong (payload : List Nat)
  | close (payload : List Nat)
deriving DecidableEq, Repr

/-- Receiver-side state.  Modelled from the spec: `fragment` is the
reassembler's `Idle | Accumulating(opcode)` state (the accumulating bytes
live in the caller's read buffer, as the tests observe); `awaiting` is the
control buffer holding the payload of the last Ping written from this side,
which the tests' `bad_ping_pong_response` shows a received Pong is checked
against. -/
structure ReadState where
  fragment : Option OpCode
  awaiting : Option (List Nat)
deriving DecidableEq, Repr

/-- The receiver state of a freshly split connection. -/
def ReadState.initial : ReadState := ⟨none, none⟩

/-- Result of processing one decoded frame: the surfaced message if any
(`none` means a fragment was consumed and reading continues), the new
receiver state, the caller's buffer, and the auto-reply frames written back
to the peer under the shared write lock. -/
structure StepOut where
  message : Option Message
  state : ReadState
  buf : List Nat
  sent : List Frame
deriving DecidableEq, Repr

/-- Process one decoded frame.  Modelled from the spec: the control-frame
interception and the fragmentation reassembler (`ratchet_core`'s `read_next`
machinery) are not under `src/`.  A Ping auto-enqueues a Pong with the
identical payload and is then surfaced; a Pong is checked against the
control buffer when a Ping is outstanding (`bad_ping_pong_response`) and
surfaced otherwise; a Close is echoed and surfaced; data frames append to
the caller's buffer through the reassembler, whose total size is bounded by
`max_message_size`. -/
def processFrame (cfg : WebSocketConfig) (st : ReadState) (buf : List Nat)
    (f : Frame) : Except Error StepOut :=
  match f.opcode with
  | .ping => .ok ⟨some (.ping f.payload), st, buf, [⟨.pong, true, f.payload⟩]⟩
  | .pong =>
    match st.awaiting with
    | none => .ok ⟨some (.pong f.payload), st, buf, []⟩
    | some q =>
      if f.payload = q then
        .ok ⟨some (.pong f.payload), { st with awaiting := none }, buf, []⟩
      else .error (.protocol "pong payload does not answer the outstanding ping")
  | .close => .ok ⟨some (.close f.payload), st, buf, [⟨.close, true, f.payload⟩]⟩
  | .continuation =>
    match st.fragment with
    | none => .error (.protocol "continuation frame with no message in progress")
    | some op0 =>
      let newBuf := buf ++ f.payload
      if cfg.max_message_size < newBuf.length then .error .capacity
      else if f.fin then
        .ok ⟨some (if op0 = .text then .text else .binary),
          { st with fragment := none }, newBuf, []⟩
      else .ok ⟨none, st, newBuf, []⟩
  | op =>
    match st.fragment with
    | some _ => .error (.protocol "data frame interleaved into fragmented message")
    | none =>
      let newBuf := buf ++ f.payload
      if cfg.max_message_size < newBuf.length then .error .capacity
      else if f.fin then
        .ok ⟨some (if op = .text then .text else .binary), st, newBuf, []⟩
      else .ok ⟨none, { st with fragment := some op }, newBuf, []⟩

/-- Result of one successful `read` call: the surfaced message, the new
receiver state, the unconsumed input bytes, the caller's buffer, and the
auto-reply frames emitted while reading. -/
structure ReadResult where
  message : Message
  state : ReadState
  rest : List Nat
  buf : List Nat
  sent : List Frame
deriving DecidableEq, Repr

/-- The `read` loop with explicit fuel: repeatedly decode a frame and
process it until a message is surfaced.  Modelled from the spec:
`Receiver::read` / `read_next` are not under `src/`.  Running out of input
(or fuel, which `read` sets high enough for any input) is the transport
closing mid-message, an IoError. -/
def readLoop (cfg : WebSocketConfig) (role : Role) :
    Nat → ReadState → List Nat → List Nat → List Frame → Except Error ReadResult
  | 0, _, _, _, _ => .error .io
  | fuel + 1, st, input, buf, sent =>
    match decodeFrame cfg role input with
    | .error e => .error e
    | .ok (f, rest) =>
      match processFrame cfg st buf f with
      | .error e => .error e
      | .ok out =>
        match out.message with
        | some m => .ok ⟨m, out.state, rest, out.buf, sent ++ out.sent⟩
        | none => readLoop cfg role fuel out.state rest out.buf (sent ++ out.sent)

/-- `Receiver::read`: surface the next message from the input bytes. -/
def read (cfg : WebSocketConfig) (role : Role) (st : ReadState)
    (input : List Nat) (buf : List Nat) : Except Error ReadResult :=
  readLoop cfg role (input.length + 1) st input buf []

/-- The raw frame writer the test-suite adds to `Sender`
(`Sender::write_frame`): buffer and encode one frame with the given opcode
and fin flag, masked per role, with no control-size check (the check lives
in the message-level writers, as `large_control_frames` shows by pushing a
256-byte Pong through `write_frame` successfully). -/
def write_frame (role : Role) (key : List Nat) (payload : List Nat)
    (opcode : OpCode) (fin : Bool) : List Nat :=
  encodeFrame role key ⟨opcode, fin, payload⟩

/-- `Sender::write_ping`.  Modelled from the spec: the message-level write
path is not under `src/`; an over-125-byte control payload is an immediate
ProtocolError (`large_control_frames`), and a written Ping's payload is
recorded in the control buffer (`bad_ping_pong_response`).  Returns the wire
bytes and the new control buffer. -/
def write_ping (role : Role) (key : List Nat) (p : List Nat) :
    Except Error (List Nat × Option (List Nat)) :=
  if 125 < p.length then .error (.protocol "control frame payload over 125 bytes")
  else .ok (encodeFrame role key ⟨.ping, true, p⟩, some p)

/-- `Sender::write_pong`.  Modelled from the spec: same size check as
`write_ping`; a written Pong leaves the control buffer alone. -/
def write_pong (role : Role) (key : List Nat) (p : List Nat) :
    Except Error (List Nat) :=
  if 125 < p.length then .error (.protocol "control frame payload over 125 bytes")
  else .ok (encodeFrame role key ⟨.pong, true, p⟩)

/-- An application-level outgoing message: the kind and payload handed to
the message-level write path (`write_text` / `write_binary` / `write_ping` /
`write_pong`). -/
inductive OutMessage
  | text (payload : List Nat)
  | binary (payload : List Nat)
  | ping (payload : List Nat)
  | pong (payload : List Nat)
deriving DecidableEq, Repr

/-- The payload of an outgoing message. -/
def OutMessage.payload : OutMessage → List Nat
  | .text p => p
  | .binary p => p
  | .ping p => p
  | .pong p => p

/-- The opcode an outgoing message is framed with. -/
def OutMessage.opcode : OutMessage → OpCode
  | .text _ => .text
  | .binary _ => .binary
  | .ping _ => .ping
  | .pong _ => .pong

/-- Message-level write: one final frame, masked per role.  Modelled from
the spec: "Write(Message): serialize to one or more frames through Frame
Codec + Extension Pipeline, masked per Role"; an over-125-byte control
payload is an immediate ProtocolError. -/
def writeMessage (role : Role) (key : List Nat) (m : OutMessage) :
    Except Error (List Nat) :=
  if m.opcode.isControl ∧ 125 < m.payload.length then
    .error (.protocol "control frame payload over 125 bytes")
  else .ok (encodeFrame role key ⟨m.opcode, true, m.payload⟩)

/-- How the receiving application recovers the sent message from one `read`
call: a unit `Text`/`Binary` pairs with the reassembled bytes in the
caller's buffer, a control message carries its own payload. -/
def ReadResult.received : ReadResult → Option OutMessage
  | ⟨.text, _, _, buf, _⟩ => some (.text buf)
  | ⟨.binary, _, _, buf, _⟩ => some (.binary buf)
  | ⟨.ping p, _, _, _, _⟩ => some (.ping p)
  | ⟨.pong p, _, _, _, _⟩ => some (.pong p)
  | ⟨.close _, _, _, _, _⟩ => none

/-- Outcome of the client handshake, as destructured by `client` in
`ratchet/src/owned/mod.rs`: the negotiated subprotocol and extension. -/
structure HandshakeResult (E : Type) where
  protocol : Option String
  extension : E

/-- `WebSocketInner` from `ratchet/src/owned/mod.rs`: the framed transport,
the role, the negotiated extension and the immutable configuration.  The
`Framed<S, Codec>` wrapper is represented by the transport value it wraps. -/
structure WebSocketInner (S E : Type) where
  framed : S
  role : Role
  extension : E
  config : WebSocketConfig

/-- `WebSocket` from `ratchet/src/owned/mod.rs`. -/
structure WebSocket (S E : Type) where
  inner : WebSocketInner S E

/-- `WebSocket::role`. -/
def WebSocket.role {S E : Type} (ws : WebSocket S E) : Role :=
  ws.inner.role

/-- `WebSocket::config`. -/
def WebSocket.config {S E : Type} (ws : WebSocket S E) : WebSocketConfig :=
  ws.inner.config

/-- `client` from `ratchet/src/owned/mod.rs`: run `exec_client_handshake`
first; on failure the `?` operator returns the error before any `WebSocket`
is constructed; on success wrap the stream with `Role::Client` and return
the socket together with the negotiated subprotocol.
`exec_client_handshake` is not under `src/`, so its outcome on this stream
and request is abstracted as the `handshakeOutcome` argument. -/
def client {S E : Type} (config : WebSocketConfig) (stream : S)
    (handshakeOutcome : Except Error (HandshakeResult E)) :
    Except Error (WebSocket S E × Option String) := do
  let res ← handshakeOutcome
  let socket : WebSocket S E :=
    { inner :=
      { framed := stream
        role := .client
        extension := res.extension
        config := config } }
  return (socket, res.protocol)

/-- One atomic action on the shared write side of a split connection.
Modelled from the spec: writers (the `Sender` and the read path's
auto-replies) acquire the single shared write-serialization lock, emit the
bytes of one fully buffered frame, and release it. -/
inductive WireAction
  | acquire (writer : Nat)
  | emit (writer : Nat) (byte : Nat)
  | release (writer : Nat)
deriving DecidableEq, Repr

/-- Semantics of the shared write lock: `none` is free, `some w` is held by
writer `w`.  A step is allowed only when the lock state permits it; a
forbidden step has no successor state. -/
def stepLock : Option Nat → WireAction → Option (Option Nat)
  | none, .acquire w => some (some w)
  | some cur, .emit w _ => if w = cur then some (some cur) else none
  | some cur, .release w => if w = cur then some none else none
  | _, _ => none

/-- Run a trace of actions through the lock semantics; `some l` is the final
lock state of a trace every step of which was permitted, `none` marks a
trace containing a forbidden step. -/
def finalLock : Option Nat → List WireAction → Option (Option Nat)
  | l, [] => some l
  | l, a :: tr =>
    match stepLock l a with
    | some l2 => finalLock l2 tr
    | none => none

/-- The bytes a trace puts on the transport, in order. -/
def wireOf : List WireAction → List Nat
  | [] => []
  | .emit _ b :: tr => b :: wireOf tr
  | _ :: tr => wireOf tr

/-- The writers of a trace in lock-acquisition order. -/
def acquiresOf : List WireAction → List Nat
  | [] => []
  | .acquire w :: tr => w :: acquiresOf tr
  | _ :: tr => acquiresOf tr

/-- Group a trace into its critical sections: each section is one writer
together with the contiguous block of bytes it emitted between acquiring
and releasing the lock.  Fails on any trace in which a writer touches the
wire without holding the lock, or in which a lock hold is left open. -/
def chunksAux : Option (Nat × List Nat) → List WireAction →
    Option (List (Nat × List Nat))
  | none, [] => some []
  | some _, [] => none
  | none, .acquire w :: tr => chunksAux (some (w, [])) tr
  | none, _ :: _ => none
  | some (w, acc), .emit w2 b :: tr =>
    if w2 = w then chunksAux (some (w, acc ++ [b])) tr else none
  | some (w, acc), .release w2 :: tr =>
    if w2 = w then (chunksAux none tr).map (fun secs => (w, acc) :: secs) else none
  | some _, .acquire _ :: _ => none

/-- The per-acquisition frame blocks of a complete trace. -/
def frameSections (tr : List WireAction) : Option (List (Nat × List Nat)) :=
  chunksAux none tr

/-- The action sequence of one `Sender::write_frame` call by writer `w`:
the entire frame `bs` is buffered first, then the shared lock is acquired,
all bytes are written, and the lock is released. -/
def writerProgram (w : Nat) (bs : List Nat) : List WireAction :=
  .acquire w :: (bs.map (.emit w ·) ++ [.release w])

/-- Whether the MASK bit of an encoded frame's second byte is set. -/
def wireMasked : List Nat → Bool
  | _ :: b1 :: _ => b1 / 128 % 2 == 1
  | _ => false

/-- Masking preserves payload length. -/
theorem maskFrom_length (key : List Nat) (i : Nat) (p : List Nat) :
    (maskFrom key i p).length = p.length := by
  induction p generalizing i with
  | nil => rfl
  | cons b bs ih => simp [maskFrom, ih]

/-- Masking is an involution: XOR-ing twice with the same repeating key
restores the payload. -/
theorem maskFrom_maskFrom (key : List Nat) (i : Nat) (p : List Nat) :
    maskFrom key i (maskFrom key i p) = p := by
  induction p generalizing i with
  | nil => rfl
  | cons b bs ih => simp [maskFrom, ih, Nat.xor_cancel_right]

/-- Unmasking an encoded masked payload restores it. -/
theorem maskPayload_maskPayload (key : List Nat) (p : List Nat) :
    maskPayload key (maskPayload key p) = p :=
  maskFrom_maskFrom key 0 p

/-- A big-endian byte field has the requested width. -/
theorem beBytes_length (k n : Nat) : (beBytes k n).length = k := by
  induction k generalizing n with
  | zero => rfl
  | succ k ih => simp [beBytes, ih]

/-- Appending a low byte multiplies the value of the high bytes by 256. -/
theorem beToNat_append_singleton (xs : List Nat) (b : Nat) :
    beToNat (xs ++ [b]) = 256 * beToNat xs + b := by
  induction xs with
  | nil => simp [beToNat]
  | cons x xs ih => simp [beToNat, ih]; ring

/-- Reading back a big-endian field returns the encoded value when it fits
the width. -/
theorem beToNat_beBytes (k n : Nat) (h : n < 256 ^ k) :
    beToNat (beBytes k n) = n := by
  induction k generalizing n with
  | zero =>
    interval_cases n
    rfl
  | succ k ih =>
    have hdiv : n / 256 < 256 ^ k := by
      rw [Nat.div_lt_iff_lt_mul (by norm_num)]
      calc n < 256 ^ (k + 1) := h
        _ = 256 ^ k * 256 := by ring
    rw [beBytes, beToNat_append_singleton, ih _ hdiv]
    omega

/-- Decoding the opcode nibble of an encoded opcode returns it. -/
theorem OpCode.fromNat_toNat (op : OpCode) :
    OpCode.fromNat op.toNat = some op := by
  cases op <;> rfl

/-- FIN bit of the first header byte. -/
theorem header_fin (fin : Bool) (op : OpCode) :
    ((if fin then 128 else 0) + op.toNat) / 128 % 2 = if fin then 1 else 0 := by
  cases fin <;> cases op <;> decide

/-- The reserved bits of the first header byte are zero. -/
theorem header_rsv (fin : Bool) (op : OpCode) :
    ((if fin then 128 else 0) + op.toNat) / 16 % 8 = 0 := by
  cases fin <;> cases op <;> decide

/-- The opcode nibble of the first header byte. -/
theorem header_op (fin : Bool) (op : OpCode) :
    ((if fin then 128 else 0) + op.toNat) % 16 = op.toNat := by
  cases fin <;> cases op <;> decide

/-- MASK bit of the second header byte when set. -/
theorem maskbit_set (x : Nat) (h : x ≤ 127) : (128 + x) / 128 % 2 = 1 := by
  omega

/-- MASK bit of the second header byte when clear. -/
theorem maskbit_clear (x : Nat) (h : x ≤ 127) : x / 128 % 2 = 0 := by
  omega

/-- The low seven bits of the second header byte when the MASK bit is set. -/
theorem len7_of_set (x : Nat) (h : x ≤ 127) : (128 + x) % 128 = x := by
  omega

/-- The low seven bits of the second header byte when the MASK bit is
clear. -/
theorem len7_of_clear (x : Nat) (h : x ≤ 127) : x % 128 = x := by
  omega

/-- A 7-bit inline length field parses to itself. -/
theorem parseLenField_small (len : Nat) (rest : List Nat) (h : len ≤ 125) :
    parseLenField len rest = .ok (len, rest) := by
  simp [parseLenField, h]

/-- A 16-bit extended length field parses to the encoded length. -/
theorem parseLenField_mid (len : Nat) (rest : List Nat) (h1 : 125 < len)
    (h2 : len ≤ 65535) :
    parseLenField 126 (beBytes 2 len ++ rest) = .ok (len, rest) := by
  have hlen : (beBytes 2 len).length = 2 := beBytes_length 2 len
  have htake : (beBytes 2 len ++ rest).take 2 = beBytes 2 len :=
    List.take_left' hlen
  have hdrop : (beBytes 2 len ++ rest).drop 2 = rest :=
    List.drop_left' hlen
  have hval : beToNat (beBytes 2 len) = len :=
    beToNat_beBytes 2 len (by norm_num; omega)
  simp [parseLenField, htake, hdrop, hval, List.length_append, hlen]
  omega

/-- A 64-bit extended length field parses to the encoded length. -/
theorem parseLenField_big (len : Nat) (rest : List Nat) (h1 : 65535 < len)
    (h2 : len < 256 ^ 8) :
    parseLenField 127 (beBytes 8 len ++ rest) = .ok (len, rest) := by
  have hlen : (beBytes 8 len).length = 8 := beBytes_length 8 len
  have htake : (beBytes 8 len ++ rest).take 8 = beBytes 8 len :=
    List.take_left' hlen
  have hdrop : (beBytes 8 len ++ rest).drop 8 = rest :=
    List.drop_left' hlen
  have hval : beToNat (beBytes 8 len) = len := beToNat_beBytes 8 len h2
  simp [parseLenField, htake, hdrop, hval, List.length_append, hlen]
  omega

/-- Length of the transmitted mask key. -/
theorem normKey_length (key : List Nat) : (normKey key).length = 4 := by
  simp [normKey]

/-- Frame-codec round trip: a frame encoded for the wire by one side is
decoded unchanged by the other side, consuming exactly the frame's bytes.
Holds for every payload that fits the 64-bit length field and the
receiver's frame limit, with control frames final and at most 125 bytes as
the protocol requires. -/
theorem decode_encode (cfg : WebSocketConfig) (role : Role) (key : List Nat)
    (f : Frame)
    (hc : f.opcode.isControl = true → f.payload.length ≤ 125 ∧ f.fin = true)
    (h64 : f.payload.length < 256 ^ 8)
    (hframe : f.payload.length ≤ cfg.max_frame_size) :
    decodeFrame cfg role.other (encodeFrame role key f) = .ok (f, []) := by
  obtain ⟨op, fin, p⟩ := f
  dsimp only at hc h64 hframe
  have hctrl : ¬ (op.isControl = true ∧
      (((if fin then 128 else 0) + op.toNat) / 128 % 2 = 0 ∨ 125 < p.length)) := by
    intro ⟨hop, hbad⟩
    obtain ⟨hlen, hfin⟩ := hc hop
    subst hfin
    rw [header_fin] at hbad
    simp at hbad
    omega
  have hfin : decide (((if fin then 128 else 0) + op.toNat) / 128 % 2 = 1) = fin := by
    rw [header_fin]
    cases fin <;> decide
  have htakem : List.take p.length (maskFrom (normKey key) 0 p) =
      maskFrom (normKey key) 0 p := by
    rw [← maskFrom_length (normKey key) 0 p]
    exact List.take_length _
  have hdropm : List.drop p.length (maskFrom (normKey key) 0 p) = [] := by
    rw [← maskFrom_length (normKey key) 0 p]
    exact List.drop_length _
  have htakep : List.take p.length p = p := List.take_length p
  have hdropp : List.drop p.length p = [] := List.drop_length p
  have htake4 : List.take 4 (normKey key ++ maskFrom (normKey key) 0 p) =
      normKey key := List.take_left' (normKey_length key)
  have hdrop4 : List.drop 4 (normKey key ++ maskFrom (normKey key) 0 p) =
      maskFrom (normKey key) 0 p := List.drop_left' (normKey_length key)
  have hdropall : List.drop (4 + p.length)
      (normKey key ++ maskFrom (normKey key) 0 p) = [] := by
    have hlen : (normKey key ++ maskFrom (normKey key) 0 p).length =
        4 + p.length := by
      simp [normKey, maskFrom_length]
      omega
    rw [← hlen]
    exact List.drop_length _
  cases role with
  | client =>
    rcases le_or_lt p.length 125 with hl | hl
    · have hq : p.length / 128 = 0 := by omega
      simp only [encodeFrame, Role.other, if_pos hl]
      simp [decodeFrame, header_rsv, header_op, OpCode.fromNat_toNat, hq,
        len7_of_set p.length (by omega),
        parseLenField_small p.length _ hl, Nat.not_lt.mpr hframe, hctrl,
        htake4, hdrop4, hdropall, htakem, hdropm, normKey_length,
        maskFrom_length, maskPayload, maskFrom_maskFrom, hfin]
    · rcases le_or_lt p.length 65535 with hm | hm
      · simp only [encodeFrame, Role.other, if_neg (by omega : ¬ p.length ≤ 125), if_pos hm]
        simp [decodeFrame, header_rsv, header_op, OpCode.fromNat_toNat,
          maskbit_set 126 (by omega), len7_of_set 126 (by omega),
          parseLenField_mid p.length _ hl hm, Nat.not_lt.mpr hframe, hctrl,
          htake4, hdrop4, hdropall, htakem, hdropm, normKey_length,
          maskFrom_length, maskPayload, maskFrom_maskFrom, hfin]
      · simp only [encodeFrame, Role.other, if_neg (by omega : ¬ p.length ≤ 125),
          if_neg (by omega : ¬ p.length ≤ 65535)]
        simp [decodeFrame, header_rsv, header_op, OpCode.fromNat_toNat,
          maskbit_set 127 (by omega), len7_of_set 127 (by omega),
          parseLenField_big p.length _ hm h64, Nat.not_lt.mpr hframe, hctrl,
          htake4, hdrop4, hdropall, htakem, hdropm, normKey_length,
          maskFrom_length, maskPayload, maskFrom_maskFrom, hfin]
  | server =>
    rcases le_or_lt p.length 125 with hl | hl
    · have hq : p.length / 128 = 0 := by omega
      simp only [encodeFrame, Role.other, if_pos hl]
      simp [decodeFrame, header_rsv, header_op, OpCode.fromNat_toNat, hq,
        len7_of_clear p.length (by omega),
        parseLenField_small p.length _ hl, Nat.not_lt.mpr hframe, hctrl,
        htakep, hdropp, hfin]
    · rcases le_or_lt p.length 65535 with hm | hm
      · simp only [encodeFrame, Role.other, if_neg (by omega : ¬ p.length ≤ 125), if_pos hm]
        simp [decodeFrame, header_rsv, header_op, OpCode.fromNat_toNat,
          maskbit_clear 126 (by omega), len7_of_clear 126 (by omega),
          parseLenField_mid p.length _ hl hm, Nat.not_lt.mpr hframe, hctrl,
          htakep, hdropp, hfin]
      · simp only [encodeFrame, Role.other, if_neg (by omega : ¬ p.length ≤ 125),
          if_neg (by omega : ¬ p.length ≤ 65535)]
        simp [decodeFrame, header_rsv, header_op, OpCode.fromNat_toNat,
          maskbit_clear 127 (by omega), len7_of_clear 127 (by omega),
          parseLenField_big p.length _ hm h64, Nat.not_lt.mpr hframe, hctrl,
          htakep, hdropp, hfin]

/-- One `read` call that decodes a frame whose processing surfaces a
message returns that outcome together with the unconsumed bytes. -/
theorem read_step (cfg : WebSocketConfig) (role : Role) (st : ReadState)
    (input buf : List Nat) (f : Frame) (rest : List Nat) (m : Message)
    (st2 : ReadState) (buf2 : List Nat) (sent2 : List Frame)
    (hdec : decodeFrame cfg role input = .ok (f, rest))
    (hproc : processFrame cfg st buf f = .ok ⟨some m, st2, buf2, sent2⟩) :
    read cfg role st input buf = .ok ⟨m, st2, rest, buf2, sent2⟩ := by
  cases input with
  | nil => simp [decodeFrame] at hdec
  | cons b t => simp [read, readLoop, hdec, hproc]

/-- A frame the decoder rejects fails the whole `read` call with the
decoder's error. -/
theorem read_decode_error (cfg : WebSocketConfig) (role : Role)
    (st : ReadState) (input buf : List Nat) (e : Error)
    (hdec : decodeFrame cfg role input = .error e) :
    read cfg role st input buf = .error e := by
  cases input with
  | nil =>
    simp [decodeFrame] at hdec
    simp [read, readLoop, decodeFrame, hdec]
  | cons b t => simp [read, readLoop, hdec]

/-- A decoded frame whose processing fails fails the whole `read` call with
the processing error. -/
theorem read_process_error (cfg : WebSocketConfig) (role : Role)
    (st : ReadState) (input buf : List Nat) (f : Frame) (rest : List Nat)
    (e : Error) (hdec : decodeFrame cfg role input = .ok (f, rest))
    (hproc : processFrame cfg st buf f = .error e) :
    read cfg role st input buf = .error e := by
  cases input with
  | nil => simp [decodeFrame] at hdec
  | cons b t => simp [read, readLoop, hdec, hproc]

/-- Decomposition of lock-disciplined traces, generalized over the chunk
state: a trace every step of which the lock semantics permits, run from the
lock state matching the chunk state and ending with the lock free, parses
into critical sections whose bytes concatenate to the trace's wire bytes
and whose writers are the acquisition order. -/
theorem chunksAux_complete (tr : List WireAction) :
    ∀ cs : Option (Nat × List Nat),
      finalLock (cs.map Prod.fst) tr = some none →
      ∃ secs, chunksAux cs tr = some secs ∧
        (secs.map Prod.snd).flatten = (cs.elim [] Prod.snd) ++ wireOf tr ∧
        secs.map Prod.fst = (cs.elim [] fun pr => [pr.fst]) ++ acquiresOf tr := by
  induction tr with
  | nil =>
    intro cs h
    cases cs with
    | none => exact ⟨[], rfl, rfl, rfl⟩
    | some pr => simp [finalLock] at h
  | cons a tr ih =>
    intro cs h
    cases cs with
    | none =>
      cases a with
      | acquire w =>
        simp only [finalLock, stepLock, Option.map_none] at h
        obtain ⟨secs, h1, h2, h3⟩ := ih (some (w, [])) h
        refine ⟨secs, h1, ?_, ?_⟩
        · simpa [wireOf] using h2
        · simpa [acquiresOf] using h3
      | emit w b => simp [finalLock, stepLock] at h
      | release w => simp [finalLock, stepLock] at h
    | some pr =>
      obtain ⟨w, acc⟩ := pr
      cases a with
      | acquire w2 => simp [finalLock, stepLock] at h
      | emit w2 b =>
        by_cases hw : w2 = w
        · subst hw
          have h2 : finalLock (some w2) tr = some none := by
            simpa [finalLock, stepLock] using h
          obtain ⟨secs, h1, h2, h3⟩ := ih (some (w2, acc ++ [b])) (by simpa using h2)
          refine ⟨secs, ?_, ?_, ?_⟩
          · simpa [chunksAux] using h1
          · simp only [wireOf, Option.elim] at h2 ⊢
            rw [h2]
            simp
          · simpa [acquiresOf] using h3
        · simp [finalLock, stepLock, hw] at h
      | release w2 =>
        by_cases hw : w2 = w
        · subst hw
          have h2 : finalLock none tr = some none := by
            simpa [finalLock, stepLock] using h
          obtain ⟨secs, h1, h2, h3⟩ := ih none (by simpa using h2)
          refine ⟨(w2, acc) :: secs, ?_, ?_, ?_⟩
          · simp [chunksAux, h1]
          · simp only [wireOf, Option.elim, List.map_cons, List.flatten_cons] at h2 ⊢
            rw [h2]
            simp
          · simp only [acquiresOf, Option.elim, List.map_cons] at h3 ⊢
            rw [h3]
            simp
        · simp [finalLock, stepLock, hw] at h

/-- Running a sequence of `write_frame` calls back to back produces a trace
whose critical sections are exactly the written frames in order. -/
theorem frameSections_writerPrograms (ws : List (Nat × List Nat)) :
    frameSections (List.flatten (ws.map fun pr => writerProgram pr.1 pr.2)) =
      some ws := by
  have aux : ∀ (w : Nat) (bs acc : List Nat) (rest : List WireAction),
      chunksAux (some (w, acc)) (bs.map (.emit w ·) ++ (.release w :: rest)) =
        (chunksAux none rest).map fun secs => (w, acc ++ bs) :: secs := by
    intro w bs
    induction bs with
    | nil => intro acc rest; simp [chunksAux]
    | cons b bs ih =>
      intro acc rest
      simp only [List.map_cons, List.cons_append]
      simp [chunksAux]
      rw [ih (acc ++ [b]) rest]
      simp
  induction ws with
  | nil => rfl
  | cons pr ws ih =>
    obtain ⟨w, bs⟩ := pr
    simp only [List.map_cons, List.flatten_cons, frameSections] at ih ⊢
    have hshape : writerProgram w bs ++
        (ws.map fun pr => writerProgram pr.1 pr.2).flatten =
        WireAction.acquire w :: (bs.map (.emit w ·) ++
          (.release w :: (ws.map fun pr => writerProgram pr.1 pr.2).flatten)) := by
      simp [writerProgram]
    rw [hshape]
    show chunksAux (some (w, [])) _ = _
    rw [aux w bs []]
    simp [ih]

/-- Decoding an encoded control frame whose payload exceeds 125 bytes is
rejected with a ProtocolError, whatever its fin flag. -/
theorem decode_oversized_control (cfg : WebSocketConfig) (role : Role)
    (key : List Nat) (op : OpCode) (fin : Bool) (p : List Nat)
    (hop : op.isControl = true) (h : 125 < p.length)
    (h64 : p.length < 256 ^ 8) (hframe : p.length ≤ cfg.max_frame_size) :
    decodeFrame cfg role.other (encodeFrame role key ⟨op, fin, p⟩) =
      .error (.protocol "invalid control frame") := by
  have hcond : op.isControl = true ∧
      (((if fin then 128 else 0) + op.toNat) / 128 % 2 = 0 ∨ 125 < p.length) :=
    ⟨hop, Or.inr h⟩
  cases role with
  | client =>
    rcases le_or_lt p.length 65535 with hm | hm
    · simp only [encodeFrame, Role.other, if_neg (by omega : ¬ p.length ≤ 125), if_pos hm]
      simp [decodeFrame, header_rsv, header_op, OpCode.fromNat_toNat,
        maskbit_set 126 (by omega), len7_of_set 126 (by omega),
        parseLenField_mid p.length _ h hm, Nat.not_lt.mpr hframe, hcond]
    · simp only [encodeFrame, Role.other, if_neg (by omega : ¬ p.length ≤ 125),
        if_neg (by omega : ¬ p.length ≤ 65535)]
      simp [decodeFrame, header_rsv, header_op, OpCode.fromNat_toNat,
        maskbit_set 127 (by omega), len7_of_set 127 (by omega),
        parseLenField_big p.length _ hm h64, Nat.not_lt.mpr hframe, hcond]
  | server =>
    rcases le_or_lt p.length 65535 with hm | hm
    · simp only [encodeFrame, Role.other, if_neg (by omega : ¬ p.length ≤ 125), if_pos hm]
      simp [decodeFrame, header_rsv, header_op, OpCode.fromNat_toNat,
        maskbit_clear 126 (by omega), len7_of_clear 126 (by omega),
        parseLenField_mid p.length _ h hm, Nat.not_lt.mpr hframe, hcond]
    · simp only [encodeFrame, Role.other, if_neg (by omega : ¬ p.length ≤ 125),
        if_neg (by omega : ¬ p.length ≤ 65535)]
      simp [decodeFrame, header_rsv, header_op, OpCode.fromNat_toNat,
        maskbit_clear 127 (by omega), len7_of_clear 127 (by omega),
        parseLenField_big p.length _ hm h64, Nat.not_lt.mpr hframe, hcond]

/-- C2: for every payload `p`, a connection receiving Ping(`p`) writes
exactly one auto-reply — a Pong carrying the identical payload `p` — under
the shared write lock, and surfaces the Ping itself as an observable
Message once the auto-reply is enqueued; the receiver state and the
caller's buffer are untouched. -/
theorem auto_pong (cfg : WebSocketConfig) (role : Role) (key : List Nat)
    (st : ReadState) (buf p : List Nat) (h125 : p.length ≤ 125)
    (hframe : p.length ≤ cfg.max_frame_size) :
    read cfg role.other st (encodeFrame role key ⟨.ping, true, p⟩) buf =
      .ok ⟨.ping p, st, [], buf, [⟨.pong, true, p⟩]⟩ := by
  have hdec := decode_encode cfg role key ⟨.ping, true, p⟩
    (fun _ => ⟨h125, rfl⟩)
    (lt_of_le_of_lt h125 (by norm_num))
    hframe
  exact read_step _ _ _ _ _ _ _ _ _ _ _ hdec rfl

/-- C2 witness: the `ping_pong` scenario — the server receiving
Ping("ping!") auto-replies Pong("ping!") and surfaces the Ping. -/
theorem auto_pong_witness :
    read WebSocketConfig.default (Role.other .client) ReadState.initial
        (encodeFrame .client [7, 11, 13, 17]
          ⟨.ping, true, [112, 105, 110, 103, 33]⟩) [] =
      .ok ⟨.ping [112, 105, 110, 103, 33], ReadState.initial, [], [],
        [⟨.pong, true, [112, 105, 110, 103, 33]⟩]⟩ :=
  auto_pong WebSocketConfig.default .client [7, 11, 13, 17] ReadState.initial
    [] [112, 105, 110, 103, 33] (by decide) (by decide)

/-- C3: a control-frame payload longer than 125 bytes is rejected with a
ProtocolError on both sides: `write_ping` refuses to write it, and decoding
such a frame on receipt refuses it — it is never truncated or silently
accepted. -/
theorem oversized_control_rejected (cfg : WebSocketConfig) (role : Role)
    (key : List Nat) (op : OpCode) (fin : Bool) (p : List Nat)
    (hop : op.isControl = true) (h : 125 < p.length)
    (h64 : p.length < 256 ^ 8) (hframe : p.length ≤ cfg.max_frame_size) :
    (∃ e, write_ping role key p = .error e ∧ e.is_protocol = true) ∧
    (∃ e, decodeFrame cfg role.other (encodeFrame role key ⟨op, fin, p⟩) =
      .error e ∧ e.is_protocol = true) := by
  constructor
  · exact ⟨.protocol "control frame payload over 125 bytes",
      by simp [write_ping, h], rfl⟩
  · exact ⟨.protocol "invalid control frame",
      decode_oversized_control cfg role key op fin p hop h h64 hframe, rfl⟩

/-- C3 witness: the `large_control_frames` scenario — a 256-byte Ping is
refused by `write_ping`, and a raw 256-byte Pong is refused on decode. -/
theorem oversized_control_rejected_witness :
    (∃ e, write_ping .client [7, 11, 13, 17] (List.replicate 256 13) =
      .error e ∧ e.is_protocol = true) ∧
    (∃ e, decodeFrame WebSocketConfig.default (Role.other .client)
        (encodeFrame .client [7, 11, 13, 17]
          ⟨.pong, true, List.replicate 256 13⟩) =
      .error e ∧ e.is_protocol = true) :=
  oversized_control_rejected WebSocketConfig.default .client [7, 11, 13, 17]
    .pong true (List.replicate 256 13) (by decide)
    (by rw [List.length_replicate]; norm_num)
    (by rw [List.length_replicate]; norm_num)
    (by rw [List.length_replicate]; norm_num [WebSocketConfig.default])

/-- C6: encode-then-decode round trip at the message level with the
identity extension: writing a Text, Binary, Ping or Pong message as wire
frames and reading them back on the other side yields the original message
— the same kind and the same payload — consuming the frame exactly.
Covers every payload admitted by the configuration (in particular lengths
0, 1, 125, 126, 65536 and 70000, control frames at most 125 bytes). -/
theorem message_roundtrip (cfg : WebSocketConfig) (role : Role)
    (key : List Nat) (m : OutMessage)
    (hc : m.opcode.isControl = true → m.payload.length ≤ 125)
    (h64 : m.payload.length < 256 ^ 8)
    (hframe : m.payload.length ≤ cfg.max_frame_size)
    (hmsg : m.payload.length ≤ cfg.max_message_size) :
    ∃ bs r, writeMessage role key m = .ok bs ∧
      read cfg role.other ReadState.initial bs [] = .ok r ∧
      r.received = some m ∧ r.rest = [] := by
  cases m with
  | text p =>
    dsimp only [OutMessage.opcode, OutMessage.payload] at hc h64 hframe hmsg
    refine ⟨encodeFrame role key ⟨.text, true, p⟩,
      ⟨.text, ReadState.initial, [], p, []⟩, rfl, ?_, rfl, rfl⟩
    have hdec := decode_encode cfg role key ⟨.text, true, p⟩
      (fun hx => nomatch hx) h64 hframe
    refine read_step _ _ _ _ _ _ _ _ _ _ _ hdec ?_
    simp [processFrame, ReadState.initial, Nat.not_lt.mpr hmsg]
  | binary p =>
    dsimp only [OutMessage.opcode, OutMessage.payload] at hc h64 hframe hmsg
    refine ⟨encodeFrame role key ⟨.binary, true, p⟩,
      ⟨.binary, ReadState.initial, [], p, []⟩, rfl, ?_, rfl, rfl⟩
    have hdec := decode_encode cfg role key ⟨.binary, true, p⟩
      (fun hx => nomatch hx) h64 hframe
    refine read_step _ _ _ _ _ _ _ _ _ _ _ hdec ?_
    simp [processFrame, ReadState.initial, Nat.not_lt.mpr hmsg]
  | ping p =>
    dsimp only [OutMessage.opcode, OutMessage.payload] at hc h64 hframe hmsg
    have h125 := hc rfl
    refine ⟨encodeFrame role key ⟨.ping, true, p⟩,
      ⟨.ping p, ReadState.initial, [], [], [⟨.pong, true, p⟩]⟩, ?_, ?_, rfl, rfl⟩
    · simp [writeMessage, OutMessage.opcode, OutMessage.payload,
        Nat.not_lt.mpr h125]
    · have hdec := decode_encode cfg role key ⟨.ping, true, p⟩
        (fun _ => ⟨h125, rfl⟩) h64 hframe
      exact read_step _ _ _ _ _ _ _ _ _ _ _ hdec rfl
  | pong p =>
    dsimp only [OutMessage.opcode, OutMessage.payload] at hc h64 hframe hmsg
    have h125 := hc rfl
    refine ⟨encodeFrame role key ⟨.pong, true, p⟩,
      ⟨.pong p, ReadState.initial, [], [], []⟩, ?_, ?_, rfl, rfl⟩
    · simp [writeMessage, OutMessage.opcode, OutMessage.payload,
        Nat.not_lt.mpr h125]
    · have hdec := decode_encode cfg role key ⟨.pong, true, p⟩
        (fun _ => ⟨h125, rfl⟩) h64 hframe
      exact read_step _ _ _ _ _ _ _ _ _ _ _ hdec rfl

/-- C6 witness: a 126-byte Binary message (exercising the 16-bit extended
length field) round-trips from client to server. -/
theorem message_roundtrip_witness :
    ∃ bs r, writeMessage .client [7, 11, 13, 17]
        (.binary (List.replicate 126 7)) = .ok bs ∧
      read WebSocketConfig.default (Role.other .client) ReadState.initial
        bs [] = .ok r ∧
      r.received = some (.binary (List.replicate 126 7)) ∧ r.rest = [] :=
  message_roundtrip WebSocketConfig.default .client [7, 11, 13, 17]
    (.binary (List.replicate 126 7))
    (by intro hx; exact absurd hx (by decide))
    (by rw [OutMessage.payload, List.length_replicate]; norm_num)
    (by rw [OutMessage.payload, List.length_replicate]; norm_num [WebSocketConfig.default])
    (by rw [OutMessage.payload, List.length_replicate]; norm_num [WebSocketConfig.default])

/-- C1: the interleaving scenario of the spec and the
`interleaved_control_frames` test: the client sends a Text fragment "123"
(fin=0), a Continuation "456" (fin=0), Ping("data") (fin=1), Pong("data")
(fin=1) and a final Continuation "789" (fin=1); successive reads on the
server surface Ping("data"), then Pong("data"), then a completed Text
message whose reassembled payload is "123456789" — the interleaved control
frames do not abort the in-progress reassembly. -/
theorem interleaved_control_frames :
    ∃ r1 r2 r3,
      read WebSocketConfig.default .server ReadState.initial
        (write_frame .client [7, 11, 13, 17] [49, 50, 51] .text false ++
         (write_frame .client [7, 11, 13, 17] [52, 53, 54] .continuation false ++
          (write_frame .client [7, 11, 13, 17] [100, 97, 116, 97] .ping true ++
           (write_frame .client [7, 11, 13, 17] [100, 97, 116, 97] .pong true ++
            write_frame .client [7, 11, 13, 17] [55, 56, 57] .continuation true))))
        [] = .ok r1 ∧
      r1.message = .ping [100, 97, 116, 97] ∧
      read WebSocketConfig.default .server r1.state r1.rest r1.buf = .ok r2 ∧
      r2.message = .pong [100, 97, 116, 97] ∧
      read WebSocketConfig.default .server r2.state r2.rest r2.buf = .ok r3 ∧
      r3.message = .text ∧
      r3.buf = [49, 50, 51, 52, 53, 54, 55, 56, 57] :=
  ⟨⟨.ping [100, 97, 116, 97], ⟨some .text, none⟩,
      [138, 132, 7, 11, 13, 17, 99, 106, 121, 112,
       128, 131, 7, 11, 13, 17, 48, 51, 52],
      [49, 50, 51, 52, 53, 54], [⟨.pong, true, [100, 97, 116, 97]⟩]⟩,
    ⟨.pong [100, 97, 116, 97], ⟨some .text, none⟩,
      [128, 131, 7, 11, 13, 17, 48, 51, 52],
      [49, 50, 51, 52, 53, 54], []⟩,
    ⟨.text, ⟨none, none⟩, [], [49, 50, 51, 52, 53, 54, 55, 56, 57], []⟩,
    rfl, rfl, rfl, rfl, rfl, rfl, rfl⟩

/-- C4 counterexample (from the `bad_ping_pong_response` test): the client
has Ping("ping1") outstanding; the server sends Pong("bad data"), which was
not solicited by any Ping from the client — yet the client's read fails
with a ProtocolError, refuting "a received Pong never makes read fail". -/
theorem pong_mismatch_fails_read :
    read WebSocketConfig.default .client
        ⟨none, some [112, 105, 110, 103, 49]⟩
        (write_frame .server [7, 11, 13, 17]
          [98, 97, 100, 32, 100, 97, 116, 97] .pong true) [] =
      .error (.protocol "pong payload does not answer the outstanding ping") ∧
    Error.is_protocol
      (.protocol "pong payload does not answer the outstanding ping") = true :=
  ⟨rfl, rfl⟩

/-- C4 amended: a received Pong is surfaced as a Pong message with its
payload, without touching the buffer or writing anything, when no Ping from
this side is outstanding or when its payload answers the outstanding Ping
(the control buffer is then cleared); a Pong whose payload does not answer
the outstanding Ping fails the read with a ProtocolError. -/
theorem pong_surfacing_amended (cfg : WebSocketConfig) (role : Role)
    (key : List Nat) (st : ReadState) (buf p : List Nat)
    (h125 : p.length ≤ 125) (hframe : p.length ≤ cfg.max_frame_size) :
    ((st.awaiting = none ∨ st.awaiting = some p) →
      read cfg role.other st (encodeFrame role key ⟨.pong, true, p⟩) buf =
        .ok ⟨.pong p, ⟨st.fragment, none⟩, [], buf, []⟩) ∧
    (∀ q, st.awaiting = some q → p ≠ q →
      read cfg role.other st (encodeFrame role key ⟨.pong, true, p⟩) buf =
        .error (.protocol "pong payload does not answer the outstanding ping")) := by
  obtain ⟨frag, aw⟩ := st
  have hdec := decode_encode cfg role key ⟨.pong, true, p⟩
    (fun _ => ⟨h125, rfl⟩) (lt_of_le_of_lt h125 (by norm_num)) hframe
  constructor
  · rintro (hA | hA) <;> dsimp only at hA <;> subst hA
    · exact read_step _ _ _ _ _ _ _ _ _ _ _ hdec rfl
    · refine read_step _ _ _ _ _ _ _ _ _ _ _ hdec ?_
      simp [processFrame]
  · intro q hA hne
    dsimp only at hA
    subst hA
    refine read_process_error _ _ _ _ _ _ _ _ hdec ?_
    simp [processFrame, hne]

/-- C4 witness: the `reads_unsolicited_pong` scenario — the client, with
nothing outstanding, reads the server's Pong("pong!") without error or side
effect. -/
theorem pong_surfacing_amended_witness :
    read WebSocketConfig.default (Role.other .server) ⟨none, none⟩
        (encodeFrame .server [7, 11, 13, 17]
          ⟨.pong, true, [112, 111, 110, 103, 33]⟩) [] =
      .ok ⟨.pong [112, 111, 110, 103, 33], ⟨none, none⟩, [], [], []⟩ :=
  (pong_surfacing_amended WebSocketConfig.default .server [7, 11, 13, 17]
    ⟨none, none⟩ [] [112, 111, 110, 103, 33] (by decide) (by decide)).1
    (Or.inl rfl)

/-- C5 counterexample: two completed Text messages with different
reassembled payloads ("123" and "4") surface as the *same* `Message` value,
so the value returned for a reassembled Text message cannot contain the
reassembled string — it is the unit variant `Message::Text`, and the string
is only in the caller's buffer. -/
theorem text_message_value_carries_no_payload :
    ∃ r1 r2,
      read WebSocketConfig.default .server ReadState.initial
        (write_frame .client [7, 11, 13, 17] [49, 50, 51] .text true) []
        = .ok r1 ∧
      read WebSocketConfig.default .server ReadState.initial
        (write_frame .client [7, 11, 13, 17] [52] .text true) [] = .ok r2 ∧
      r1.message = r2.message ∧ r1.buf ≠ r2.buf :=
  ⟨⟨.text, ⟨none, none⟩, [], [49, 50, 51], []⟩,
   ⟨.text, ⟨none, none⟩, [], [52], []⟩,
   rfl, rfl, rfl, by decide⟩

/-- C5 amended: a completed Text message is surfaced as the unit value
`Message::Text`; its reassembled string payload is delivered through the
caller-supplied read buffer, not inside the `Message` value. -/
theorem text_payload_in_buffer (cfg : WebSocketConfig) (role : Role)
    (key : List Nat) (st : ReadState) (buf p : List Nat)
    (hfrag : st.fragment = none) (h64 : p.length < 256 ^ 8)
    (hframe : p.length ≤ cfg.max_frame_size)
    (hmsg : buf.length + p.length ≤ cfg.max_message_size) :
    read cfg role.other st (encodeFrame role key ⟨.text, true, p⟩) buf =
      .ok ⟨.text, st, [], buf ++ p, []⟩ := by
  obtain ⟨frag, aw⟩ := st
  dsimp only at hfrag
  subst hfrag
  have hdec := decode_encode cfg role key ⟨.text, true, p⟩
    (fun hx => nomatch hx) h64 hframe
  refine read_step _ _ _ _ _ _ _ _ _ _ _ hdec ?_
  simp [processFrame]
  omega

/-- C5-amended witness: the server reads an unfragmented Text "hi" into the
caller's buffer, surfacing the unit value `Message::Text`. -/
theorem text_payload_in_buffer_witness :
    read WebSocketConfig.default (Role.other .client) ⟨none, none⟩
        (encodeFrame .client [7, 11, 13, 17] ⟨.text, true, [104, 105]⟩) [] =
      .ok ⟨.text, ⟨none, none⟩, [], [] ++ [104, 105], []⟩ :=
  text_payload_in_buffer WebSocketConfig.default .client [7, 11, 13, 17]
    ⟨none, none⟩ [] [104, 105] rfl (by decide) (by decide) (by decide)

/-- C10: control frames with an empty payload are valid: `write_pong` with
a zero-length payload succeeds, and the peer's read surfaces
`Message::Pong` with an empty payload, leaving the caller-supplied read
buffer empty. -/
theorem empty_control_frame :
    ∃ bs, write_pong .server [7, 11, 13, 17] [] = .ok bs ∧
      read WebSocketConfig.default .client ReadState.initial bs [] =
        .ok ⟨.pong [], ReadState.initial, [], [], []⟩ :=
  ⟨[138, 0], rfl, rfl⟩

/-- C7: `client` runs the client handshake first; on any handshake failure
it returns the error without ever constructing a `WebSocket`, so no frame
I/O can precede a completed handshake; on success it returns the socket —
built with `Role::Client` around the stream and the immutable configuration
— together with the negotiated subprotocol. -/
theorem client_handshake_first {S E : Type} (config : WebSocketConfig)
    (stream : S) (hs : Except Error (HandshakeResult E)) :
    (∀ e, hs = .error e → client config stream hs = .error e) ∧
    (∀ res, hs = .ok res → ∃ ws : WebSocket S E,
      client config stream hs = .ok (ws, res.protocol) ∧
      ws.role = .client ∧ ws.config = config ∧ ws.inner.framed = stream) := by
  constructor
  · intro e he
    subst he
    rfl
  · intro res hr
    subst hr
    exact ⟨⟨⟨stream, .client, res.extension, config⟩⟩, rfl, rfl, rfl, rfl⟩

/-- C7 witness: a successful handshake negotiating subprotocol "chat"
yields a client-role socket, and a failed handshake yields its error. -/
theorem client_handshake_first_witness :
    (∃ ws : WebSocket Unit Unit,
      client WebSocketConfig.default () (.ok ⟨some "chat", ()⟩) =
        .ok (ws, some "chat") ∧
      ws.role = .client ∧ ws.config = WebSocketConfig.default ∧
      ws.inner.framed = ()) ∧
    client (E := Unit) WebSocketConfig.default () (.error .handshake) =
      .error .handshake :=
  ⟨(client_handshake_first WebSocketConfig.default ()
      (.ok ⟨some "chat", ()⟩)).2 ⟨some "chat", ()⟩ rfl,
    (client_handshake_first WebSocketConfig.default ()
      (.error .handshake)).1 .handshake rfl⟩

/-- C8: masking obligation is determined by the role for every frame
written — a client-written frame has the MASK bit set, a server-written
frame does not — and receiving a frame whose masking contradicts the
sender's role (a client reading a masked frame, a server reading an
unmasked one) is a ProtocolError. -/
theorem masking_by_role (cfg : WebSocketConfig) (key : List Nat) (f : Frame) :
    wireMasked (encodeFrame .client key f) = true ∧
    wireMasked (encodeFrame .server key f) = false ∧
    decodeFrame cfg .client (encodeFrame .client key f) =
      .error (.protocol "masking direction violation") ∧
    decodeFrame cfg .server (encodeFrame .server key f) =
      .error (.protocol "masking direction violation") := by
  obtain ⟨op, fin, p⟩ := f
  rcases le_or_lt p.length 125 with hl | hl
  · have hq : p.length / 128 = 0 := by omega
    refine ⟨?_, ?_, ?_, ?_⟩ <;>
      simp [encodeFrame, if_pos hl, wireMasked, decodeFrame, header_rsv,
        header_op, OpCode.fromNat_toNat, hq]
  · rcases le_or_lt p.length 65535 with hm | hm
    · refine ⟨?_, ?_, ?_, ?_⟩ <;>
        simp [encodeFrame, if_neg (by omega : ¬ p.length ≤ 125), if_pos hm,
          wireMasked, decodeFrame, header_rsv, header_op, OpCode.fromNat_toNat,
          maskbit_set 126 (by omega), maskbit_clear 126 (by omega)]
    · refine ⟨?_, ?_, ?_, ?_⟩ <;>
        simp [encodeFrame, if_neg (by omega : ¬ p.length ≤ 125),
          if_neg (by omega : ¬ p.length ≤ 65535), wireMasked, decodeFrame,
          header_rsv, header_op, OpCode.fromNat_toNat,
          maskbit_set 127 (by omega), maskbit_clear 127 (by omega)]

/-- C9: write serialization on the shared transport.  Each write path —
explicit `Sender` writes and auto-replies from the read path — acquires the
single shared write lock before touching the transport (`stepLock` permits
emitting only to the lock holder).  Every trace the lock semantics permits,
with all holds released, decomposes into critical sections: the bytes
reaching the transport are exactly the concatenation of whole per-writer
blocks ordered by lock-acquisition order — no frame is ever torn by
interleaving, and the peer observes only whole-frame boundaries. -/
theorem write_serialization (tr : List WireAction)
    (h : finalLock none tr = some none) :
    ∃ secs, frameSections tr = some secs ∧
      wireOf tr = (secs.map Prod.snd).flatten ∧
      secs.map Prod.fst = acquiresOf tr := by
  obtain ⟨secs, h1, h2, h3⟩ := chunksAux_complete tr none (by simpa using h)
  refine ⟨secs, h1, ?_, ?_⟩
  · simpa using h2.symm
  · simpa using h3

/-- C9 witness: a trace of two writers — writer 0 framing bytes [1, 2],
then writer 1 framing [3] — respects the lock discipline and decomposes
into its two untorn frames in acquisition order. -/
theorem write_serialization_witness :
    finalLock none
      [WireAction.acquire 0, .emit 0 1, .emit 0 2, .release 0,
       .acquire 1, .emit 1 3, .release 1] = some none ∧
    ∃ secs,
      frameSections
        [WireAction.acquire 0, .emit 0 1, .emit 0 2, .release 0,
         .acquire 1, .emit 1 3, .release 1] = some secs ∧
      wireOf
        [WireAction.acquire 0, .emit 0 1, .emit 0 2, .release 0,
         .acquire 1, .emit 1 3, .release 1] = (secs.map Prod.snd).flatten ∧
      secs.map Prod.fst = acquiresOf
        [WireAction.acquire 0, .emit 0 1, .emit 0 2, .release 0,
         .acquire 1, .emit 1 3, .release 1] :=
  ⟨rfl, write_serialization _ rfl⟩

end Ratchet
